import Mathlib

/-!
Shallow embedding of the customer-sales-analysis pipeline (src/main.py).

Tables are lists of records; numeric columns are rationals; pandas group-by
(with its default ascending key sort) becomes "sorted distinct keys, each
paired with the aggregate over the rows carrying that key";
`sort_values(ascending=False)` becomes an insertion sort by descending value;
the inner merge becomes a bind over the sales rows filtering the customer
rows on equal `customer_id`; a pivot cell with no contributing row is `none`
(pandas NaN).
-/

/-- A parsed calendar date (`pd.to_datetime` output), a concern of the loader. -/
structure Date where
  year : ℕ
  month : ℕ
  day : ℕ
deriving DecidableEq, Repr

/-- One row of `sales_data.csv`. -/
structure SalesRecord where
  order_id : ℕ
  customer_id : ℕ
  product_name : String
  quantity : ℚ
  price : ℚ
  order_date : Date
  region : String
deriving DecidableEq, Repr

/-- One row of `customer_data.csv`. -/
structure CustomerRecord where
  customer_id : ℕ
  customer_name : String
deriving DecidableEq, Repr

/-- One row of the merged frame `df` built by `preprocess_data`. -/
structure EnrichedRow where
  order_id : ℕ
  customer_id : ℕ
  product_name : String
  quantity : ℚ
  price : ℚ
  order_date : Date
  region : String
  revenue : ℚ
  month : ℕ
  customer_name : String
deriving DecidableEq, Repr

/-- Models `to_period("M")`: the calendar-month key of a date, encoded `year*100 + month`. -/
def monthKey (d : Date) : ℕ :=
  d.year * 100 + d.month

/-- One merged row: the sales columns, the derived `revenue` and `month`
columns (main.py lines 27-28), and the name of the joined customer. -/
def enrich (s : SalesRecord) (c : CustomerRecord) : EnrichedRow :=
  ⟨s.order_id, s.customer_id, s.product_name, s.quantity, s.price,
   s.order_date, s.region, s.quantity * s.price, monthKey s.order_date,
   c.customer_name⟩

/-- Embeds `preprocess_data` (main.py lines 21-32): derive `revenue` and `month`,
then `pd.merge(sales, customers, on="customer_id", how="inner")` — one output
row per (sales row, matching customer row) pair, in left-key order. -/
def preprocess_data (sales : List SalesRecord) (customers : List CustomerRecord) :
    List EnrichedRow :=
  sales.flatMap fun s =>
    (customers.filter fun c => c.customer_id = s.customer_id).map (enrich s)

/-- The distinct keys of a column, ascending: pandas `groupby` key order
(`sort=True` default). -/
def sortedKeys {K : Type} [LinearOrder K] [DecidableEq K] (l : List K) : List K :=
  List.insertionSort (fun a b => a ≤ b) l.dedup

/-- Embeds `df.groupby(key)["revenue"].sum()`: each distinct key (ascending) paired
with the summed revenue of its group. -/
def groupbySum {K : Type} [LinearOrder K] [DecidableEq K]
    (key : EnrichedRow → K) (df : List EnrichedRow) : List (K × ℚ) :=
  (sortedKeys (df.map key)).map fun k =>
    (k, ((df.filter fun r => key r = k).map (·.revenue)).sum)

/-- The order `.sort_values(ascending=False)` sorts by: descending value. -/
def valueDesc {K : Type} (a b : K × ℚ) : Prop :=
  b.2 ≤ a.2

instance valueDesc.instDecidableRel {K : Type} : DecidableRel (valueDesc (K := K)) :=
  fun a b => inferInstanceAs (Decidable (b.2 ≤ a.2))

instance valueDesc.instIsTotal {K : Type} : IsTotal (K × ℚ) valueDesc :=
  ⟨fun a b => le_total b.2 a.2⟩

instance valueDesc.instIsTrans {K : Type} : IsTrans (K × ℚ) valueDesc :=
  ⟨fun _ _ _ h1 h2 => le_trans h2 h1⟩

/-- Embeds `.sort_values(ascending=False)` on a keyed series. -/
def sortDescByValue {K : Type} (l : List (K × ℚ)) : List (K × ℚ) :=
  List.insertionSort valueDesc l

/-- Embeds `customer_revenue` (main.py lines 37-41): group `df` by `customer_name`,
sum revenue, sort descending by value. -/
def customer_revenue (df : List EnrichedRow) : List (String × ℚ) :=
  sortDescByValue (groupbySum (fun r => r.customer_name) df)

/-- One row of the `clv` frame (main.py lines 43-50). -/
structure CLV where
  total_spent : ℚ
  total_orders : ℕ
  avg_order_value : ℚ
deriving DecidableEq, Repr

/-- Embeds `clv` (main.py lines 43-50): group `df` by `customer_id` (keys ascending),
`total_spent` = summed revenue, `total_orders` = `nunique` of `order_id`,
`avg_order_value` = `total_spent / total_orders`. -/
def clv (df : List EnrichedRow) : List (ℕ × CLV) :=
  (sortedKeys (df.map (·.customer_id))).map fun c =>
    let g := df.filter fun r => r.customer_id = c
    let total_spent : ℚ := (g.map (·.revenue)).sum
    let total_orders : ℕ := (g.map (·.order_id)).dedup.length
    (c, ⟨total_spent, total_orders, total_spent / (total_orders : ℚ)⟩)

/-- Embeds `customer_analysis` (main.py lines 35-52). -/
def customer_analysis (df : List EnrichedRow) :
    List (String × ℚ) × List (ℕ × CLV) :=
  (customer_revenue df, clv df)

/-- Embeds `monthly_sales` (main.py lines 57-61): group by `month`, sum revenue;
pandas leaves the rows in ascending key order (`reset_index` keeps it). -/
def monthly_sales (df : List EnrichedRow) : List (ℕ × ℚ) :=
  groupbySum (fun r => r.month) df

/-- Embeds `top_products` (main.py lines 63-68): per-product revenue sums sorted
descending, `.head(10)`. -/
def top_products (df : List EnrichedRow) : List (String × ℚ) :=
  (sortDescByValue (groupbySum (fun r => r.product_name) df)).take 10

/-- Embeds `region_sales` (main.py lines 70-74): per-region revenue sums sorted
descending, no truncation. -/
def region_sales (df : List EnrichedRow) : List (String × ℚ) :=
  sortDescByValue (groupbySum (fun r => r.region) df)

/-- Embeds `sales_analysis` (main.py lines 55-76). -/
def sales_analysis (df : List EnrichedRow) :
    List (ℕ × ℚ) × List (String × ℚ) × List (String × ℚ) :=
  (monthly_sales df, top_products df, region_sales df)

/-- One cell of the pivot table: summed revenue over the rows with the given
region and product, `none` (pandas NaN) when no row contributes. -/
def pivotCell (df : List EnrichedRow) (reg p : String) : Option ℚ :=
  let g := df.filter fun r => r.region = reg ∧ r.product_name = p
  if g.isEmpty then none else some ((g.map (·.revenue)).sum)

/-- One row of the pivot table: the cell of the given region for every distinct
product name (columns ascending). -/
def pivotRow (df : List EnrichedRow) (reg : String) :
    List (String × Option ℚ) :=
  (sortedKeys (df.map (·.product_name))).map fun p => (p, pivotCell df reg p)

/-- Embeds `pivot_analysis` (main.py lines 79-88): rows = distinct regions
(ascending), columns = distinct product names (ascending), cell = summed
revenue over the rows with that region and product, `none` (NaN) when no
row contributes. -/
def pivot_analysis (df : List EnrichedRow) :
    List (String × List (String × Option ℚ)) :=
  (sortedKeys (df.map (·.region))).map fun reg => (reg, pivotRow df reg)

/-- Read cell (`reg`, `p`) of the pivot table: `none` when the row or column
label is absent, `some cell` otherwise. -/
def pivotLookup (pt : List (String × List (String × Option ℚ)))
    (reg p : String) : Option (Option ℚ) :=
  (pt.find? fun e => e.1 = reg).bind fun row =>
    (row.2.find? fun e => e.1 = p).map (·.2)

/-- The top-customer step of `print_summary` (main.py lines 135-136):
`customer_revenue.index[0]` / `.iloc[0]`, a positional read of element 0.
`none` models the `IndexError` pandas raises on an empty series — the code
has no `EmptyResultError`. -/
def print_summary_top_customer (cr : List (String × ℚ)) :
    Option (String × ℚ) :=
  cr.head?

/-! ### Concrete inputs used by the example theorems and witnesses -/

/-- Worked example from the spec: two Widget sales by customer 1 in the West. -/
def exampleSales : List SalesRecord :=
  [⟨1, 1, "Widget", 2, 10, ⟨2024, 1, 5⟩, "West"⟩,
   ⟨2, 1, "Widget", 1, 10, ⟨2024, 2, 10⟩, "West"⟩]

/-- Worked example from the spec: the single customer Alice. -/
def exampleCustomers : List CustomerRecord :=
  [⟨1, "Alice"⟩]

/-- The merged frame of the worked example from the spec. -/
def exampleDF : List EnrichedRow :=
  preprocess_data exampleSales exampleCustomers

/-- A two-region, two-product input whose pivot table has one empty cell. -/
def pivotSales : List SalesRecord :=
  [⟨1, 1, "Widget", 2, 10, ⟨2024, 1, 5⟩, "West"⟩,
   ⟨2, 2, "Gadget", 1, 7, ⟨2024, 1, 6⟩, "East"⟩]

/-- Customers for the pivot example. -/
def pivotCustomers : List CustomerRecord :=
  [⟨1, "Alice"⟩, ⟨2, "Bob"⟩]

/-- The merged frame of the pivot example. -/
def pivotDF : List EnrichedRow :=
  preprocess_data pivotSales pivotCustomers

/-- A sales table and a customer table with a duplicated `customer_id`: the
inner merge then yields more rows than the sales table has. -/
def dupSales : List SalesRecord :=
  [⟨1, 1, "Widget", 1, 5, ⟨2024, 1, 1⟩, "East"⟩]

/-- Two customer rows sharing `customer_id = 1`. -/
def dupCustomers : List CustomerRecord :=
  [⟨1, "Alice"⟩, ⟨1, "Alicia"⟩]

/-! ### Helper lemmas about the group-by machinery -/

lemma mem_sortedKeys {K : Type} [LinearOrder K] [DecidableEq K]
    (l : List K) (k : K) : k ∈ sortedKeys l ↔ k ∈ l := by
  unfold sortedKeys
  rw [List.mem_insertionSort]
  exact List.mem_dedup

lemma nodup_sortedKeys {K : Type} [LinearOrder K] [DecidableEq K]
    (l : List K) : (sortedKeys l).Nodup :=
  (List.perm_insertionSort _ _).nodup_iff.mpr (List.nodup_dedup l)

lemma sorted_sortedKeys {K : Type} [LinearOrder K] [DecidableEq K]
    (l : List K) : List.Pairwise (fun a b : K => a ≤ b) (sortedKeys l) :=
  List.sorted_insertionSort _ _

lemma sum_ite_of_not_mem {K : Type} [DecidableEq K] (x : K) (v : ℚ) :
    ∀ ks : List K, x ∉ ks → (ks.map fun k => if x = k then v else 0).sum = 0
  | [], _ => rfl
  | k :: t, h => by
    have hx : ¬x = k := fun he => h (he ▸ List.mem_cons_self k t)
    simp only [List.map_cons, List.sum_cons, if_neg hx, zero_add]
    exact sum_ite_of_not_mem x v t fun ht => h (List.mem_cons_of_mem k ht)

lemma sum_ite_of_mem {K : Type} [DecidableEq K] (x : K) (v : ℚ) :
    ∀ ks : List K, ks.Nodup → x ∈ ks →
      (ks.map fun k => if x = k then v else 0).sum = v
  | [], _, hm => absurd hm (List.not_mem_nil x)
  | k :: t, hnd, hm => by
    rcases List.mem_cons.mp hm with he | ht
    · subst he
      rw [List.map_cons, List.sum_cons, if_pos rfl,
        sum_ite_of_not_mem x v t (List.nodup_cons.mp hnd).1, add_zero]
    · have hxk : ¬x = k := by
        rintro rfl
        exact (List.nodup_cons.mp hnd).1 ht
      simp only [List.map_cons, List.sum_cons, if_neg hxk, zero_add]
      exact sum_ite_of_mem x v t (List.nodup_cons.mp hnd).2 ht

lemma sum_map_filter_key {K : Type} [DecidableEq K] (key : EnrichedRow → K)
    (ks : List K) :
    ∀ df : List EnrichedRow, ks.Nodup → (∀ r ∈ df, key r ∈ ks) →
      (ks.map fun k =>
        ((df.filter fun r => key r = k).map (·.revenue)).sum).sum
        = (df.map (·.revenue)).sum
  | [], _, _ => by simp
  | r :: t, hnd, hmem => by
    have ht : ∀ x ∈ t, key x ∈ ks := fun x hx =>
      hmem x (List.mem_cons_of_mem r hx)
    have hsplit : ∀ k : K,
        (((r :: t).filter fun x => key x = k).map (·.revenue)).sum
          = (if key r = k then r.revenue else 0)
            + ((t.filter fun x => key x = k).map (·.revenue)).sum := by
      intro k
      by_cases h : key r = k
      · simp [List.filter_cons, h]
      · simp [List.filter_cons, h]
    calc (ks.map fun k =>
            (((r :: t).filter fun x => key x = k).map (·.revenue)).sum).sum
        = (ks.map fun k =>
            (if key r = k then r.revenue else 0)
              + ((t.filter fun x => key x = k).map (·.revenue)).sum).sum := by
          rw [List.map_congr_left fun k _ => hsplit k]
      _ = (ks.map fun k => if key r = k then r.revenue else 0).sum
            + (ks.map fun k =>
                ((t.filter fun x => key x = k).map (·.revenue)).sum).sum := by
          rw [← List.sum_map_add]
      _ = r.revenue + (t.map (·.revenue)).sum := by
          rw [sum_ite_of_mem (key r) r.revenue ks hnd
              (hmem r (List.mem_cons_self r t)),
            sum_map_filter_key key ks t hnd ht]
      _ = ((r :: t).map (·.revenue)).sum := by simp

lemma sum_values_groupbySum {K : Type} [LinearOrder K] [DecidableEq K]
    (key : EnrichedRow → K) (df : List EnrichedRow) :
    ((groupbySum key df).map (·.2)).sum = (df.map (·.revenue)).sum := by
  unfold groupbySum
  rw [List.map_map]
  exact sum_map_filter_key key (sortedKeys (df.map key)) df
    (nodup_sortedKeys _)
    (fun r hr => (mem_sortedKeys _ _).mpr (List.mem_map_of_mem key hr))

lemma map_fst_groupbySum {K : Type} [LinearOrder K] [DecidableEq K]
    (key : EnrichedRow → K) (df : List EnrichedRow) :
    (groupbySum key df).map (·.1) = sortedKeys (df.map key) := by
  unfold groupbySum
  rw [List.map_map]
  exact List.map_id _

lemma groupbySum_mem_val {K : Type} [LinearOrder K] [DecidableEq K]
    (key : EnrichedRow → K) (df : List EnrichedRow) (e : K × ℚ)
    (h : e ∈ groupbySum key df) :
    e.2 = ((df.filter fun r => key r = e.1).map (·.revenue)).sum := by
  rcases List.mem_map.mp h with ⟨k, _, rfl⟩
  rfl

lemma mem_sortDescByValue {K : Type} (l : List (K × ℚ)) (e : K × ℚ) :
    e ∈ sortDescByValue l ↔ e ∈ l :=
  List.mem_insertionSort _

lemma sum_values_sortDescByValue {K : Type} (l : List (K × ℚ)) :
    ((sortDescByValue l).map (·.2)).sum = (l.map (·.2)).sum :=
  ((List.perm_insertionSort valueDesc l).map (·.2)).sum_eq

lemma length_sortDescByValue {K : Type} (l : List (K × ℚ)) :
    (sortDescByValue l).length = l.length :=
  (List.perm_insertionSort valueDesc l).length_eq

lemma find_map_pair {K B : Type} [DecidableEq K] (f : K → B) (x : K) :
    ∀ ks : List K, x ∈ ks →
      ((ks.map fun k => (k, f k)).find? fun e => e.1 = x) = some (x, f x)
  | [], hm => absurd hm (List.not_mem_nil x)
  | k :: t, hm => by
    by_cases h : k = x
    · subst h
      rw [List.map_cons]
      exact List.find?_cons_of_pos _ (by simp)
    · have hx : x ∈ t := by
        rcases List.mem_cons.mp hm with he | ht
        · exact absurd he.symm h
        · exact ht
      rw [List.map_cons, List.find?_cons_of_neg _ (by simp [h])]
      exact find_map_pair f x t hx

lemma filter_customer_length_le_one (customers : List CustomerRecord)
    (h : (customers.map (·.customer_id)).Nodup) (i : ℕ) :
    (customers.filter fun c => c.customer_id = i).length ≤ 1 := by
  induction customers with
  | nil => simp
  | cons c t ih =>
    rw [List.map_cons, List.nodup_cons] at h
    by_cases hc : c.customer_id = i
    · rw [List.filter_cons_of_pos (by simp [hc])]
      have ht : (t.filter fun c => c.customer_id = i) = [] := by
        rw [List.filter_eq_nil_iff]
        intro a ha
        simp only [decide_eq_true_eq]
        intro hai
        exact h.1 (hc ▸ hai ▸ List.mem_map_of_mem (·.customer_id) ha)
      simp [ht]
    · rw [List.filter_cons_of_neg (by simp [hc])]
      exact ih h.2

lemma sum_le_length {α : Type} (l : List α) (f : α → ℕ)
    (h : ∀ a ∈ l, f a ≤ 1) : (l.map f).sum ≤ l.length := by
  induction l with
  | nil => simp
  | cons a t ih =>
    rw [List.map_cons, List.sum_cons, List.length_cons]
    have h1 := h a (List.mem_cons_self a t)
    have h2 := ih fun x hx => h x (List.mem_cons_of_mem a hx)
    omega

lemma length_sortedKeys {K : Type} [LinearOrder K] [DecidableEq K]
    (l : List K) : (sortedKeys l).length = l.dedup.length :=
  (List.perm_insertionSort _ _).length_eq

lemma pivotLookup_present (df : List EnrichedRow) (reg p : String)
    (hr : reg ∈ df.map (·.region)) (hp : p ∈ df.map (·.product_name)) :
    pivotLookup (pivot_analysis df) reg p = some (pivotCell df reg p) := by
  unfold pivotLookup pivot_analysis
  rw [find_map_pair (pivotRow df) reg _ ((mem_sortedKeys _ _).mpr hr),
    Option.some_bind]
  show ((pivotRow df reg).find? fun e => e.1 = p).map (·.2)
      = some (pivotCell df reg p)
  unfold pivotRow
  rw [find_map_pair (pivotCell df reg) p _ ((mem_sortedKeys _ _).mpr hp)]
  rfl

/-! ### Testable properties from the spec -/

/-- C1: Revenue conservation — the values of `customer_revenue` and of
`region_sales` each sum to the total `revenue` of the enriched table. -/
theorem revenue_conservation (df : List EnrichedRow) :
    ((customer_revenue df).map (·.2)).sum = (df.map (·.revenue)).sum ∧
    ((region_sales df).map (·.2)).sum = (df.map (·.revenue)).sum := by
  constructor
  · unfold customer_revenue
    rw [sum_values_sortDescByValue, sum_values_groupbySum]
  · unfold region_sales
    rw [sum_values_sortDescByValue, sum_values_groupbySum]

/-- C5: Ranking correctness — `customer_revenue` and `region_sales` are
non-increasing by value across consecutive elements. -/
theorem ranking_correctness (df : List EnrichedRow) :
    List.Pairwise (fun a b : String × ℚ => b.2 ≤ a.2) (customer_revenue df) ∧
    List.Pairwise (fun a b : String × ℚ => b.2 ≤ a.2) (region_sales df) :=
  ⟨List.sorted_insertionSort valueDesc _, List.sorted_insertionSort valueDesc _⟩

/-- C10: on an empty `customer_revenue` the top-customer step of
`print_summary` performs a positional read of element 0 that is out of
bounds (pandas `IndexError`, modelled as `none`); the code never raises an
`EmptyResultError`. Evaluates the embedded code at the failing input. -/
theorem top_customer_empty_read :
    print_summary_top_customer (customer_revenue (preprocess_data [] [])) = none :=
  rfl

/-- C3: the end-to-end example from the spec — two Widget sales by Alice yield
`customer_revenue = [("Alice", 30)]`, `clv = [(1, {30, 2, 15})]`,
`monthly_sales = [(2024-01, 20), (2024-02, 10)]` (months encoded
`year*100 + month`), and pivot cell (West, Widget) = 30. -/
theorem end_to_end_example :
    customer_revenue exampleDF = [("Alice", 30)] ∧
    clv exampleDF = [(1, ⟨30, 2, 15⟩)] ∧
    monthly_sales exampleDF = [(202401, 20), (202402, 10)] ∧
    pivotLookup (pivot_analysis exampleDF) "West" "Widget" = some (some 30) := by
  refine ⟨?_, ?_, ?_, ?_⟩ <;>
    norm_num [customer_revenue, clv, monthly_sales, exampleDF, exampleSales,
      exampleCustomers, preprocess_data, enrich, monthKey, sortDescByValue,
      groupbySum, sortedKeys, List.insertionSort, List.orderedInsert,
      List.dedup, List.pwFilter, List.filter, List.flatMap, valueDesc,
      pivot_analysis, pivotRow, pivotCell, pivotLookup, List.find?,
      List.isEmpty]

/-- C2 (counterexample): with a duplicated `customer_id` in the customer
table, the inner merge emits one row per match, so the enriched table has
more rows than the sales table — the row-count bound of the claim fails for this
pair of input tables. -/
theorem join_invariant_counterexample :
    ¬((∀ r ∈ preprocess_data dupSales dupCustomers,
        r.customer_id ∈ dupCustomers.map (·.customer_id)) ∧
      (preprocess_data dupSales dupCustomers).length ≤ dupSales.length) := by
  intro h
  have := h.2
  revert this
  decide

/-- C2 (amended): the `customer_id` of every enriched row occurs in the customer
table, and — provided the `customer_id` values of the customer table are pairwise
distinct — the enriched table has at most as many rows as the sales table. -/
theorem join_invariant (sales : List SalesRecord)
    (customers : List CustomerRecord) :
    (∀ r ∈ preprocess_data sales customers,
      r.customer_id ∈ customers.map (·.customer_id)) ∧
    ((customers.map (·.customer_id)).Nodup →
      (preprocess_data sales customers).length ≤ sales.length) := by
  constructor
  · intro r hr
    rcases List.mem_flatMap.mp hr with ⟨s, _, hr2⟩
    rcases List.mem_map.mp hr2 with ⟨c, hc, rfl⟩
    have hcf := List.mem_filter.mp hc
    have hcs : c.customer_id = s.customer_id := by
      simpa using hcf.2
    have hid : (enrich s c).customer_id = c.customer_id := by
      simp [enrich, hcs]
    rw [hid]
    exact List.mem_map_of_mem _ hcf.1
  · intro h
    unfold preprocess_data
    rw [List.length_flatMap]
    refine (sum_le_length sales _ fun s _ => ?_)
    show ((customers.filter fun c =>
        c.customer_id = s.customer_id).map (enrich s)).length ≤ 1
    rw [List.length_map]
    exact filter_customer_length_le_one customers h s.customer_id

/-- Witness for `join_invariant` at the worked example from the spec,
discharging the no-duplicate hypothesis of the row-count half concretely. -/
theorem join_invariant_witness :
    (∀ r ∈ preprocess_data exampleSales exampleCustomers,
      r.customer_id ∈ exampleCustomers.map (·.customer_id)) ∧
    (preprocess_data exampleSales exampleCustomers).length
      ≤ exampleSales.length :=
  ⟨(join_invariant exampleSales exampleCustomers).1,
   (join_invariant exampleSales exampleCustomers).2 (by decide)⟩

/-- C4: CLV consistency — every `customer_id` of the enriched table has a
`clv` entry whose `total_spent` is the summed revenue of the group, whose
`total_orders` is the count of distinct `order_id` values in the group, and whose
`avg_order_value` equals `total_spent / total_orders`. -/
theorem clv_consistency (df : List EnrichedRow) (c : ℕ)
    (h : c ∈ df.map (·.customer_id)) :
    ∃ e ∈ clv df, e.1 = c ∧
      e.2.total_spent
        = ((df.filter fun r => r.customer_id = c).map (·.revenue)).sum ∧
      e.2.total_orders
        = ((df.filter fun r => r.customer_id = c).map (·.order_id)).dedup.length ∧
      e.2.avg_order_value = e.2.total_spent / (e.2.total_orders : ℚ) := by
  have hc : c ∈ sortedKeys (df.map (·.customer_id)) :=
    (mem_sortedKeys _ _).mpr h
  exact ⟨_, List.mem_map_of_mem _ hc, rfl, rfl, rfl, rfl⟩

/-- Witness for `clv_consistency` at the worked example from the spec. -/
theorem clv_consistency_witness :
    (1 : ℕ) ∈ exampleDF.map (·.customer_id) ∧
    ∃ e ∈ clv exampleDF, e.1 = 1 ∧
      e.2.total_spent
        = ((exampleDF.filter fun r => r.customer_id = 1).map (·.revenue)).sum ∧
      e.2.total_orders
        = ((exampleDF.filter fun r =>
            r.customer_id = 1).map (·.order_id)).dedup.length ∧
      e.2.avg_order_value = e.2.total_spent / (e.2.total_orders : ℚ) :=
  ⟨by decide, clv_consistency exampleDF 1 (by decide)⟩

/-- C6: CLV division safety — every group produced by the `customer_id`
group-by has at least one row, hence at least one distinct `order_id`, so
`total_orders ≥ 1` and the division in `avg_order_value` is never by zero. -/
theorem clv_division_safety (df : List EnrichedRow) (e : ℕ × CLV)
    (h : e ∈ clv df) : 1 ≤ e.2.total_orders := by
  unfold clv at h
  rcases List.mem_map.mp h with ⟨c, hc, rfl⟩
  have hcd : c ∈ df.map (·.customer_id) := (mem_sortedKeys _ _).mp hc
  rcases List.mem_map.mp hcd with ⟨r, hr, hrc⟩
  have hrg : r ∈ df.filter fun x => x.customer_id = c :=
    List.mem_filter.mpr ⟨hr, by simp [hrc]⟩
  have hm : r.order_id
      ∈ ((df.filter fun x => x.customer_id = c).map (·.order_id)).dedup :=
    List.mem_dedup.mpr (List.mem_map_of_mem _ hrg)
  exact List.length_pos_of_mem hm

/-- Witness for `clv_division_safety` at the worked example from the spec. -/
theorem clv_division_safety_witness :
    ((1 : ℕ), (⟨30, 2, 15⟩ : CLV)) ∈ clv exampleDF ∧
    1 ≤ (((1 : ℕ), (⟨30, 2, 15⟩ : CLV)) : ℕ × CLV).2.total_orders := by
  have hm : ((1 : ℕ), (⟨30, 2, 15⟩ : CLV)) ∈ clv exampleDF := by
    have hclv : clv exampleDF = [(1, ⟨30, 2, 15⟩)] := by
      norm_num [clv, exampleDF, exampleSales, exampleCustomers,
        preprocess_data, enrich, monthKey, sortedKeys, List.insertionSort,
        List.orderedInsert, List.dedup, List.pwFilter, List.filter,
        List.flatMap]
    rw [hclv]
    exact List.mem_singleton.mpr rfl
  exact ⟨hm, clv_division_safety exampleDF _ hm⟩

/-- C7: Monthly ordering — `monthly_sales` is ascending by month, its months
are exactly the distinct months of the enriched table (no repeats), and the
value of each row is the summed revenue of its month. -/
theorem monthly_sales_correct (df : List EnrichedRow) :
    List.Pairwise (fun a b : ℕ × ℚ => a.1 ≤ b.1) (monthly_sales df) ∧
    ((monthly_sales df).map (·.1)).Nodup ∧
    (∀ m : ℕ, m ∈ (monthly_sales df).map (·.1) ↔ m ∈ df.map (·.month)) ∧
    ∀ e ∈ monthly_sales df,
      e.2 = ((df.filter fun r => r.month = e.1).map (·.revenue)).sum := by
  unfold monthly_sales
  refine ⟨?_, ?_, ?_, ?_⟩
  · unfold groupbySum
    rw [List.pairwise_map]
    exact sorted_sortedKeys _
  · rw [map_fst_groupbySum]
    exact nodup_sortedKeys _
  · intro m
    rw [map_fst_groupbySum]
    exact mem_sortedKeys _ m
  · intro e he
    exact groupbySum_mem_val _ df e he

/-- Witness for `monthly_sales_correct` at the worked example from the spec. -/
theorem monthly_sales_correct_witness :
    ((202401 : ℕ) ∈ (monthly_sales exampleDF).map (·.1)) ∧
    (20 : ℚ)
      = ((exampleDF.filter fun r => r.month = 202401).map (·.revenue)).sum := by
  have h := monthly_sales_correct exampleDF
  have hm : (202401 : ℕ) ∈ exampleDF.map (·.month) := by decide
  refine ⟨(h.2.2.1 202401).mpr hm, ?_⟩
  have hms : monthly_sales exampleDF = [(202401, 20), (202402, 10)] := by
    norm_num [monthly_sales, exampleDF, exampleSales, exampleCustomers,
      preprocess_data, enrich, monthKey, groupbySum, sortedKeys,
      List.insertionSort, List.orderedInsert, List.dedup, List.pwFilter,
      List.filter, List.flatMap]
  have hpair : ((202401 : ℕ), (20 : ℚ)) ∈ monthly_sales exampleDF := by
    rw [hms]
    exact List.mem_cons_self _ _
  simpa using h.2.2.2 _ hpair

/-- C8: Top-products truncation — `top_products` is non-increasing by value,
has length `min 10 (number of distinct products)`, and each of its rows
carries the summed revenue of its product. -/
theorem top_products_correct (df : List EnrichedRow) :
    List.Pairwise (fun a b : String × ℚ => b.2 ≤ a.2) (top_products df) ∧
    (top_products df).length
      = min 10 ((df.map (·.product_name)).dedup.length) ∧
    ∀ e ∈ top_products df,
      e.2 = ((df.filter fun r => r.product_name = e.1).map (·.revenue)).sum := by
  unfold top_products
  refine ⟨?_, ?_, ?_⟩
  · exact (List.sorted_insertionSort valueDesc _).sublist (List.take_sublist _ _)
  · rw [List.length_take, length_sortDescByValue]
    unfold groupbySum
    rw [List.length_map, length_sortedKeys]
  · intro e he
    have he1 := List.mem_of_mem_take he
    have he2 := (mem_sortDescByValue _ _).mp he1
    exact groupbySum_mem_val _ df e he2

/-- Witness for `top_products_correct` at the worked example from the spec. -/
theorem top_products_correct_witness :
    ("Widget", (30 : ℚ)) ∈ top_products exampleDF ∧
    (30 : ℚ) = ((exampleDF.filter fun r =>
      r.product_name = "Widget").map (·.revenue)).sum := by
  have htp : top_products exampleDF = [("Widget", 30)] := by
    norm_num [top_products, exampleDF, exampleSales, exampleCustomers,
      preprocess_data, enrich, monthKey, sortDescByValue, groupbySum,
      sortedKeys, List.insertionSort, List.orderedInsert, List.dedup,
      List.pwFilter, List.filter, List.flatMap, valueDesc, List.take]
  have hm : ("Widget", (30 : ℚ)) ∈ top_products exampleDF := by
    rw [htp]
    exact List.mem_singleton.mpr rfl
  have hv := (top_products_correct exampleDF).2.2 _ hm
  exact ⟨hm, by simpa using hv⟩

/-- C9: Pivot completeness — every (region, product) pair occurring in some
row has a non-empty pivot cell holding the summed revenue of that pair; a pair of
a present region and a present product with no common row has an empty
(`none`) cell. -/
theorem pivot_completeness (df : List EnrichedRow) (reg p : String) :
    ((∃ r ∈ df, r.region = reg ∧ r.product_name = p) →
      pivotLookup (pivot_analysis df) reg p
        = some (some (((df.filter fun r =>
            r.region = reg ∧ r.product_name = p).map (·.revenue)).sum))) ∧
    ((reg ∈ df.map (·.region)) → (p ∈ df.map (·.product_name)) →
      (∀ r ∈ df, ¬(r.region = reg ∧ r.product_name = p)) →
      pivotLookup (pivot_analysis df) reg p = some none) := by
  constructor
  · rintro ⟨r, hr, hreg, hprod⟩
    have h1 : reg ∈ df.map (·.region) := by
      rw [← hreg]
      exact List.mem_map_of_mem _ hr
    have h2 : p ∈ df.map (·.product_name) := by
      rw [← hprod]
      exact List.mem_map_of_mem _ hr
    rw [pivotLookup_present df reg p h1 h2]
    have hrf : r ∈ df.filter fun x => x.region = reg ∧ x.product_name = p :=
      List.mem_filter.mpr ⟨hr, by simp [hreg, hprod]⟩
    have hne : (df.filter fun x =>
        x.region = reg ∧ x.product_name = p).isEmpty = false := by
      cases hfe : df.filter fun x => x.region = reg ∧ x.product_name = p with
      | nil => rw [hfe] at hrf; cases hrf
      | cons a l => rfl
    unfold pivotCell
    simp [hne]
    exact ⟨r, hr, hreg, hprod⟩
  · intro h1 h2 h3
    rw [pivotLookup_present df reg p h1 h2]
    have hg : (df.filter fun r =>
        r.region = reg ∧ r.product_name = p) = [] := by
      rw [List.filter_eq_nil_iff]
      intro a ha
      simpa using h3 a ha
    unfold pivotCell
    simp [hg]
    intro x hx hxr hxp
    exact h3 x hx ⟨hxr, hxp⟩

/-- Witness for `pivot_completeness`: in the two-region pivot example the
(West, Widget) cell is the summed revenue and the (East, Widget) cell is
empty. -/
theorem pivot_completeness_witness :
    (pivotLookup (pivot_analysis pivotDF) "West" "Widget"
      = some (some (((pivotDF.filter fun r =>
          r.region = "West" ∧ r.product_name = "Widget").map (·.revenue)).sum))) ∧
    pivotLookup (pivot_analysis pivotDF) "East" "Widget" = some none :=
  ⟨(pivot_completeness pivotDF "West" "Widget").1 (by decide),
   (pivot_completeness pivotDF "East" "Widget").2 (by decide) (by decide)
     (by decide)⟩
